import Mathlib

/-!
Verification model of the jsoncrypt-db entity store.

The development shallowly embeds the two layers of the source:
  * `DataReadWriter` (src/DataReadWriter.js): encrypted whole-collection
    persistence keyed by entity name, over an explicit disk map.
  * `DB` (src/DB.js): entity registry, in-memory cache, CRUD operations,
    import/export.

JavaScript objects are modelled as insertion-ordered association lists,
JS values as the inductive `JsValue`, and the collaborators (cipher,
JSON codec, filesystem) as explicit parameters.  Mutation is modelled by
explicit state passing; every operation returns its post-state even on
the error path, because the source mutates shared arrays in place before
some of its throws.
-/

namespace JsonCryptDB

/-- A JavaScript runtime value, restricted to the JSON-representable values
plus `Date` objects (used for the `createdAt`/`updatedAt` stamps).  A `date`
carries local-calendar year, month index, day of month and milliseconds
since local midnight. -/
inductive JsValue where
  | str (s : String)
  | num (n : Int)
  | boolean (b : Bool)
  | null
  | date (year month day msOfDay : Nat)
  | arr (elems : List JsValue)
  | obj (fields : List (String × JsValue))

/-- A JavaScript object: fields in insertion order. -/
abbrev Obj := List (String × JsValue)

/-- JS truthiness of a value (`NaN` is not modelled). -/
def truthy : JsValue → Bool
  | .str s => s ≠ ""
  | .num n => n ≠ 0
  | .boolean b => b
  | .null => false
  | .date _ _ _ _ => true
  | .arr _ => true
  | .obj _ => true

/-- Truthiness of a possibly-absent value; JS `undefined` is falsy. -/
def truthyOpt : Option JsValue → Bool
  | some v => truthy v
  | none => false

/-- JS strict equality `===`.  Primitives compare by value; objects, arrays
and dates compare by reference, so two independently supplied values of
those shapes are never strictly equal (aliasing is outside this model). -/
def jsStrictEq : JsValue → JsValue → Bool
  | .str a, .str b => a = b
  | .num a, .num b => a = b
  | .boolean a, .boolean b => a = b
  | .null, .null => true
  | _, _ => false

/-- JS `typeof v === "object"` (true for objects, arrays, dates and `null`). -/
def typeofIsObject : JsValue → Bool
  | .obj _ => true
  | .arr _ => true
  | .date _ _ _ _ => true
  | .null => true
  | _ => false

/-- Association-list lookup: value of the first binding of key `k`. -/
def alGet (l : List (String × α)) (k : String) : Option α :=
  match l with
  | [] => none
  | (k', v) :: t => if k' = k then some v else alGet t k

/-- Association-list key membership. -/
def alHasKey (l : List (String × α)) (k : String) : Bool :=
  match l with
  | [] => false
  | (k', _) :: t => k' = k || alHasKey t k

/-- JS property assignment `o[k] = v` / spread-override semantics: an
existing key keeps its position and gets the new value; a fresh key is
appended. -/
def alSet (l : List (String × α)) (k : String) (v : α) : List (String × α) :=
  if alHasKey l k then
    l.map (fun p => if p.1 = k then (k, v) else p)
  else
    l ++ [(k, v)]

/-- Field read on a JS object (`undefined` becomes `none`). -/
def getField (o : Obj) (k : String) : Option JsValue := alGet o k

/-- Field write on a JS object. -/
def setField (o : Obj) (k : String) (v : JsValue) : Obj := alSet o k v

/-- JS index access `v[i]` for a numeric literal index: array element,
object property named by the decimal numeral, or single character of a
string; `undefined` (`none`) otherwise. -/
def jsIndex : JsValue → Nat → Option JsValue
  | .arr xs, i => xs.get? i
  | .obj fs, i => alGet fs (toString i)
  | .str s, i => (s.toList.get? i).map (fun c => .str (String.mk [c]))
  | _, _ => none

theorem alHasKey_false_alGet (l : List (String × α)) (k : String)
    (h : alHasKey l k = false) : alGet l k = none := by
  induction l with
  | nil => rfl
  | cons p t ih =>
    obtain ⟨k', v⟩ := p
    simp only [alHasKey, Bool.or_eq_false_iff, decide_eq_false_iff_not] at h
    simp only [alGet, if_neg h.1]
    exact ih h.2

theorem alGet_map_setEntry (l : List (String × α)) (k : String) (v : α)
    (h : alHasKey l k = true) :
    alGet (l.map (fun p => if p.1 = k then (k, v) else p)) k = some v := by
  induction l with
  | nil => simp [alHasKey] at h
  | cons p t ih =>
    obtain ⟨k', w⟩ := p
    by_cases hk : k' = k
    · subst hk
      dsimp only [List.map_cons]
      rw [if_pos (show (k', w).1 = k' from rfl)]
      simp [alGet]
    · have ht : alHasKey t k = true := by
        simpa [alHasKey, hk] using h
      dsimp only [List.map_cons]
      rw [if_neg (show ¬((k', w).1 = k) from hk)]
      simp [alGet, hk, ih ht]

theorem alGet_append_single_self (l : List (String × α)) (k : String) (v : α)
    (h : alHasKey l k = false) :
    alGet (l ++ [(k, v)]) k = some v := by
  induction l with
  | nil => simp [alGet]
  | cons p t ih =>
    obtain ⟨k', w⟩ := p
    simp only [alHasKey, Bool.or_eq_false_iff, decide_eq_false_iff_not] at h
    simp [alGet, h.1, ih h.2]

theorem alGet_alSet_self (l : List (String × α)) (k : String) (v : α) :
    alGet (alSet l k v) k = some v := by
  unfold alSet
  split
  · exact alGet_map_setEntry l k v (by assumption)
  · exact alGet_append_single_self l k v (by rename_i h; exact Bool.not_eq_true _ ▸ eq_false_of_ne_true h)

theorem alGet_map_setEntry_ne (l : List (String × α)) {k' k : String} (v : α)
    (h : k' ≠ k) :
    alGet (l.map (fun p => if p.1 = k' then (k', v) else p)) k = alGet l k := by
  induction l with
  | nil => rfl
  | cons p t ih =>
    obtain ⟨k₀, w⟩ := p
    by_cases hk : k₀ = k'
    · subst hk
      dsimp only [List.map_cons]
      rw [if_pos (show (k₀, w).1 = k₀ from rfl)]
      simp [alGet, h, ih]
    · dsimp only [List.map_cons]
      rw [if_neg (show ¬((k₀, w).1 = k') from hk)]
      simp [alGet, ih]

theorem alGet_append_single_ne (l : List (String × α)) {k' k : String} (v : α)
    (h : k' ≠ k) :
    alGet (l ++ [(k', v)]) k = alGet l k := by
  induction l with
  | nil => simp [alGet, h]
  | cons p t ih =>
    obtain ⟨k₀, w⟩ := p
    simp [alGet, ih]

theorem alGet_alSet_ne (l : List (String × α)) {k' k : String} (v : α)
    (h : k' ≠ k) : alGet (alSet l k' v) k = alGet l k := by
  unfold alSet
  split
  · exact alGet_map_setEntry_ne l v h
  · exact alGet_append_single_ne l v h

theorem getField_setField_self (o : Obj) (k : String) (v : JsValue) :
    getField (setField o k v) k = some v := alGet_alSet_self o k v

theorem getField_setField_ne (o : Obj) {k' k : String} (v : JsValue)
    (h : k' ≠ k) : getField (setField o k' v) k = getField o k :=
  alGet_alSet_ne o v h

/-- `jsStrictEq` only identifies genuinely equal primitive values. -/
theorem jsStrictEq_eq {a b : JsValue} (h : jsStrictEq a b = true) : a = b := by
  cases a <;> cases b <;> simp_all [jsStrictEq]

/-! ## utils.js -/

/-- `stringHasValue` (src/utils.js): for a string argument the check
`str && str !== null && str !== undefined && str !== ""` reduces to
non-emptiness. -/
def stringHasValue (s : String) : Bool := s ≠ ""

/-- `arrayHasValue` (src/utils.js): `arr && arr.length > 0`. -/
def arrayHasValue (l : List α) : Bool := !l.isEmpty

/-- A reading of the system clock, as JS `new Date()` exposes it through
`getFullYear` / `getMonth` / `getDate` plus the time of day. -/
structure DateParts where
  year : Nat
  month : Nat
  day : Nat
  msOfDay : Nat
  deriving Repr, DecidableEq

/-- `new Date(d.getFullYear(), d.getMonth(), d.getDate())`: the current
local calendar date at midnight. -/
def dateTruncated (now : DateParts) : JsValue :=
  .date now.year now.month now.day 0

/-- `enrichDataWithDBProps` (src/utils.js lines 17-39 and the identical
private copy in src/DB.js lines 164-186): spread the object and stamp
`createdAt`/`updatedAt` (create mode) or `updatedAt` only (update mode)
with the truncated current date. -/
def enrichDataWithDBProps (now : DateParts) (o : Obj) (mode : String) : Obj :=
  if mode = "create" then
    setField (setField o "createdAt" (dateTruncated now)) "updatedAt" (dateTruncated now)
  else
    setField o "updatedAt" (dateTruncated now)

/-! ## Collaborators (out of scope per spec section 1): cipher and JSON codec -/

/-- The cipher collaborator (`src/Cryptor.js` interface): `encrypt` and
`decrypt` over serialized text. -/
structure Cryptor where
  encrypt : String → String
  decrypt : String → String

/-- The JSON codec collaborator: `JSON.stringify` / `JSON.parse` at the
payload type `α`; `parse` returns `none` where `JSON.parse` would throw. -/
structure Codec (α : Type) where
  serialize : α → String
  parse : String → Option α

/-- A thrown JS error: either an `Error` with a message or a
`ReferenceError` for reading an unbound identifier. -/
inductive JsErr where
  | err (msg : String)
  | referenceError (name : String)
  deriving Repr, DecidableEq

/-- `error.message || error` of a modelled error. -/
def JsErr.message : JsErr → String
  | .err m => m
  | .referenceError n => n ++ " is not defined"

/-! ## DataReadWriter (src/DataReadWriter.js)

Module state: `cryptor`, `entityFilesMap`, `environment`, `testMode`,
plus the filesystem collaborator as a map from file path to raw contents.
The store is generic in the payload type `α` persisted per entity
(`JSON.stringify`-able data); the DB layer instantiates `α := List Obj`. -/

structure DataReadWriterState (α : Type) where
  cryptor : Option Cryptor
  entityFilesMap : Option (List (String × String))
  environment : String
  testMode : Bool
  /-- The filesystem collaborator: file path → stored text. -/
  disk : List (String × String)

namespace DataReadWriter

/-- `hasBeenInitialized` (src/DataReadWriter.js lines 300-304). -/
def hasBeenInitialized (s : DataReadWriterState α) : Bool :=
  s.cryptor.isSome && s.entityFilesMap.isSome

/-- `entityIsValid` (src/DataReadWriter.js lines 293-298): falsy entity
names are invalid, otherwise membership in the file map. -/
def entityIsValid (m : List (String × String)) (entity : String) : Bool :=
  stringHasValue entity && alHasKey m entity

def notInitializedErr : JsErr :=
  .err "Data Store has not been initialized yet. Make sure to initialize the module before performing data-related operations."

def invalidEntityReadErr : JsErr :=
  .err "Invalid entity value provided for file READ."

def invalidEntityWriteErr : JsErr :=
  .err "Invalid entity value provided for file WRITE."

def fileMissingErr : JsErr :=
  .err "ENOENT: no such file or directory"

def jsonParseErr : JsErr :=
  .err "Unexpected token in JSON"

/-- `readSync` (src/DataReadWriter.js lines 386-408): guard initialization
and entity validity, read the file, decrypt, `JSON.parse`. -/
def readSync (cfg : Codec α) (s : DataReadWriterState α) (entity : String) :
    Except JsErr α :=
  match s.cryptor, s.entityFilesMap with
  | some c, some m =>
    if entityIsValid m entity then
      match alGet m entity with
      | some p =>
        match alGet s.disk p with
        | some raw =>
          match cfg.parse (c.decrypt raw) with
          | some v => .ok v
          | none => .error jsonParseErr
        | none => .error fileMissingErr
      | none => .error fileMissingErr
    else .error invalidEntityReadErr
  | _, _ => .error notInitializedErr

/-- `readAsync` (src/DataReadWriter.js lines 409-431): identical semantics
to `readSync` through the promise-based filesystem API. -/
def readAsync (cfg : Codec α) (s : DataReadWriterState α) (entity : String) :
    Except JsErr α :=
  readSync cfg s entity

/-- `saveSync` (src/DataReadWriter.js lines 432-455): guard initialization
and entity validity, serialize, encrypt, overwrite the entity's file in
full, and return the data unchanged. -/
def saveSync (cfg : Codec α) (s : DataReadWriterState α) (entity : String)
    (data : α) : Except JsErr α × DataReadWriterState α :=
  match s.cryptor, s.entityFilesMap with
  | some c, some m =>
    if entityIsValid m entity then
      match alGet m entity with
      | some p =>
        (.ok data, { s with disk := alSet s.disk p (c.encrypt (cfg.serialize data)) })
      | none => (.error fileMissingErr, s)
    else (.error invalidEntityWriteErr, s)
  | _, _ => (.error notInitializedErr, s)

/-- `saveAsync` (src/DataReadWriter.js lines 456-479): identical semantics
to `saveSync` through the promise-based filesystem API. -/
def saveAsync (cfg : Codec α) (s : DataReadWriterState α) (entity : String)
    (data : α) : Except JsErr α × DataReadWriterState α :=
  saveSync cfg s entity data

/-- `${__dirname}/data/${environment}/${curr}.json` (or the tests/data
root in test mode), with the constant `__dirname` prefix dropped. -/
def dataFilePath (testMode : Bool) (environment : String) (entity : String) : String :=
  (if testMode then "tests/data/" else "data/") ++ environment ++ "/" ++ entity ++ ".json"

/-- Options bag accepted by `initialize` and `build`.  `dataImport` is the
extra key `build` passes along with the spread of its own options. -/
structure InitOptions (α : Type) where
  env : String := "dev"
  isTestMode : Bool := false
  dataImport : Option (List (String × α)) := none

/-- `createFileIfNotExist` (src/DataReadWriter.js lines 315-325): write an
encrypted serialized empty collection unless the file exists.  `emptyVal`
is the value whose serialization is `JSON.stringify([])`. -/
def createFileIfNotExist (cfg : Codec α) (c : Cryptor) (emptyVal : α)
    (disk : List (String × String)) (p : String) : List (String × String) :=
  if alHasKey disk p then disk
  else alSet disk p (c.encrypt (cfg.serialize emptyVal))

/-- `initialize` (src/DataReadWriter.js lines 336-382): silent no-op when
already initialized; validates the secrets and entity list; derives the
cipher; builds the entity-to-file map, creating each missing file with an
encrypted empty collection.  NOTE (faithful to the source): the
`dataImport` member of `options` is never read — only `env` and
`isTestMode` are destructured. -/
def initStore (cfg : Codec α) (mkCryptor : String → String → Cryptor)
    (s : DataReadWriterState α) (cryptoSecret vectorSecret : String)
    (entities : List String) (options : InitOptions α) (emptyVal : α) :
    Except JsErr Unit × DataReadWriterState α :=
  if hasBeenInitialized s then (.ok (), s)
  else if ¬(stringHasValue cryptoSecret && stringHasValue vectorSecret
      && arrayHasValue entities) then
    (.error (.err "Initialization arguments [cryptoSecret], [vectorSecret], and [entities] must be provided."), s)
  else
    let c := mkCryptor cryptoSecret vectorSecret
    let tm := options.isTestMode
    let env := if stringHasValue options.env then options.env else "dev"
    let step := fun (acc : List (String × String) × List (String × String)) (e : String) =>
      let p := dataFilePath tm env e
      (alSet acc.1 e p, createFileIfNotExist cfg c emptyVal acc.2 p)
    let res := entities.foldl step ([], s.disk)
    (.ok (),
      { cryptor := some c
        entityFilesMap := some res.1
        environment := env
        testMode := tm
        disk := res.2 })

end DataReadWriter

theorem alHasKey_true_alGet_isSome (l : List (String × α)) (k : String)
    (h : alHasKey l k = true) : ∃ v, alGet l k = some v := by
  induction l with
  | nil => simp [alHasKey] at h
  | cons p t ih =>
    obtain ⟨k', v⟩ := p
    by_cases hk : k' = k
    · exact ⟨v, by simp [alGet, hk]⟩
    · simp only [alHasKey, hk, decide_eq_false_iff_not, Bool.false_or,
        decide_eq_true_eq, false_or] at h
      obtain ⟨w, hw⟩ := ih (by simpa [alHasKey, hk] using h)
      exact ⟨w, by simp [alGet, hk, hw]⟩

/-- C1: for every initialized store, every entity present in the file
mapping and every collection `data`, saving (sync or async) returns the
collection unchanged and a subsequent read (sync or async) returns a value
equal to it, assuming the collaborator contracts that `decrypt` inverts
`encrypt` and `parse` inverts `serialize`. -/
theorem DataReadWriter.save_read_roundtrip {α : Type} (cfg : Codec α)
    (s : DataReadWriterState α) (c : Cryptor) (m : List (String × String))
    (entity : String) (data : α)
    (hc : s.cryptor = some c) (hm : s.entityFilesMap = some m)
    (hent : DataReadWriter.entityIsValid m entity = true)
    (hdec : ∀ t, c.decrypt (c.encrypt t) = t)
    (hparse : ∀ v, cfg.parse (cfg.serialize v) = some v) :
    (DataReadWriter.saveSync cfg s entity data).1 = .ok data ∧
    (DataReadWriter.saveAsync cfg s entity data).1 = .ok data ∧
    DataReadWriter.readSync cfg (DataReadWriter.saveSync cfg s entity data).2 entity = .ok data ∧
    DataReadWriter.readAsync cfg (DataReadWriter.saveAsync cfg s entity data).2 entity = .ok data := by
  obtain ⟨cr, fm, env, tm, disk⟩ := s
  simp only at hc hm
  subst hc
  subst hm
  have hkey : alHasKey m entity = true := by
    have h := hent
    simp only [DataReadWriter.entityIsValid, Bool.and_eq_true] at h
    exact h.2
  obtain ⟨p, hp⟩ := alHasKey_true_alGet_isSome m entity hkey
  refine ⟨?_, ?_, ?_, ?_⟩ <;>
    simp [DataReadWriter.saveSync, DataReadWriter.saveAsync,
      DataReadWriter.readSync, DataReadWriter.readAsync, hent, hp,
      alGet_alSet_self, hdec, hparse]

/-- Identity cipher used to witness the collaborator contract. -/
def witCryptor : Cryptor := { encrypt := fun t => t, decrypt := fun t => t }

/-- Identity codec on strings used to witness the collaborator contract. -/
def witCodecString : Codec String := { serialize := fun t => t, parse := some }

/-- A concrete initialized record-store state. -/
def witDRWState : DataReadWriterState String :=
  { cryptor := some witCryptor
    entityFilesMap := some [("categories", "data/dev/categories.json")]
    environment := "dev"
    testMode := false
    disk := [] }

theorem save_read_roundtrip_witness :
    (DataReadWriter.saveSync witCodecString witDRWState "categories" "[1]").1 = .ok "[1]" ∧
    (DataReadWriter.saveAsync witCodecString witDRWState "categories" "[1]").1 = .ok "[1]" ∧
    DataReadWriter.readSync witCodecString
      (DataReadWriter.saveSync witCodecString witDRWState "categories" "[1]").2 "categories" = .ok "[1]" ∧
    DataReadWriter.readAsync witCodecString
      (DataReadWriter.saveAsync witCodecString witDRWState "categories" "[1]").2 "categories" = .ok "[1]" :=
  DataReadWriter.save_read_roundtrip witCodecString witDRWState witCryptor
    [("categories", "data/dev/categories.json")] "categories" "[1]"
    rfl rfl (by decide) (fun _ => rfl) (fun _ => rfl)

/-! ## DB (src/DB.js)

Entity registry, in-memory cache and CRUD.  The record store is the
`DataReadWriter` instantiated at collections `List Obj`.  Hooks are the
per-entity `options`. -/

/-- Per-entity options (`registerEntity` descriptor).  An absent/falsy
`identifierKey` is modelled as `""`. -/
structure EntityOptions where
  identifierKey : String := "id"
  validateOnCreate : Obj → Bool := fun _ => true
  preSaveTransform : Obj → Obj := fun o => o

/-- `entityOptions.identifierKey ? entityOptions.identifierKey : "id"`. -/
def idKeyOf (opts : EntityOptions) : String :=
  if stringHasValue opts.identifierKey then opts.identifierKey else "id"

/-- Module state of src/DB.js: registered entities, the in-memory data
cache, the two pre-build import buffers, and the underlying record store. -/
structure DBState where
  entities : List (String × EntityOptions)
  entityDataMap : List (String × List Obj)
  entityImportData : List (String × List Obj)
  entireDBImportData : List (String × List Obj)
  drw : DataReadWriterState (List Obj)

namespace DB

/-- `validateEntityForMethod` (src/DB.js lines 129-139) as a predicate:
the entity argument is truthy, a string, and registered. -/
def entityArgOk (st : DBState) (entity : String) : Bool :=
  stringHasValue entity && alHasKey st.entities entity

def invalidEntityErr (methodName : String) : JsErr :=
  .err ("Invalid parameter [entity] provided for function [" ++ methodName ++ "].")

/-- `item[objIdentifierKey] === id` for a record; an absent field reads as
`undefined`, which is strictly equal to no modelled value. -/
def matchesId (idKey : String) (id : JsValue) (item : Obj) : Bool :=
  match getField item idKey with
  | some v => jsStrictEq v id
  | none => false

/-- Split a list around its first element satisfying `p`. -/
def findFirstSplit (p : α → Bool) : List α → Option (List α × α × List α)
  | [] => none
  | x :: t =>
    if p x then some ([], x, t)
    else (findFirstSplit p t).map (fun q => (x :: q.1, q.2.1, q.2.2))

/-- The in-place patch loop of `updateFor` (src/DB.js lines 457-462):
every key of `newData` except the identifier key is assigned onto the
matched record. -/
def mergeExceptId (r : Obj) (newData : Obj) (idKey : String) : Obj :=
  newData.foldl (fun acc kv => if kv.1 ≠ idKey then setField acc kv.1 kv.2 else acc) r

/-- The recurring fetch idiom of the CRUD methods (e.g. src/DB.js lines
389-396): take the collection from the cache when the entity key is
present, otherwise read it from the record store. -/
def fetchCollection (cfg : Codec (List Obj)) (st : DBState) (entity : String) :
    Except JsErr (List Obj) :=
  match alGet st.entityDataMap entity with
  | some d => .ok d
  | none => DataReadWriter.readAsync cfg st.drw entity

/-- `findAllFor` (src/DB.js lines 328-346): with `forceFetch` the data is
re-read from the record store and never written to the cache; otherwise
the cache is served, being populated on first access. -/
def findAllFor (cfg : Codec (List Obj)) (st : DBState) (entity : String)
    (forceFetch : Bool) : Except JsErr (List Obj) × DBState :=
  if ¬ entityArgOk st entity then (.error (invalidEntityErr "findAllFor"), st)
  else if forceFetch then
    (DataReadWriter.readAsync cfg st.drw entity, st)
  else
    match alGet st.entityDataMap entity with
    | some d => (.ok d, st)
    | none =>
      match DataReadWriter.readAsync cfg st.drw entity with
      | .ok d => (.ok d, { st with entityDataMap := alSet st.entityDataMap entity d })
      | .error e => (.error e, st)

/-- `createNewFor` (src/DB.js lines 385-409): validate via the entity's
`validateOnCreate` hook (a missing record is invalid), fetch the
collection from cache or store, transform, stamp, append, update the
cache and return it. -/
def createNewFor (cfg : Codec (List Obj)) (now : DateParts) (st : DBState)
    (entity : String) (obj : Option Obj) : Except JsErr (List Obj) × DBState :=
  if ¬ entityArgOk st entity then (.error (invalidEntityErr "createNewFor"), st)
  else
    match alGet st.entities entity with
    | none => (.error (invalidEntityErr "createNewFor"), st)
    | some eopts =>
      -- `validated` is false for an absent record and otherwise the
      -- hook's verdict (src/DB.js lines 141-147)
      match obj with
      | none => (.error (.err "Invalid or no data to create."), st)
      | some o =>
        if eopts.validateOnCreate o then
          match fetchCollection cfg st entity with
          | .ok d =>
            let newDataObj := eopts.preSaveTransform o
            let d' := d ++ [enrichDataWithDBProps now newDataObj "create"]
            (.ok d', { st with entityDataMap := alSet st.entityDataMap entity d' })
          | .error e => (.error e, st)
        else (.error (.err "Invalid or no data to create."), st)

/-- `createManyNewFor` (src/DB.js lines 410-435): reject an absent/empty
array, then run the per-record validate→transform→stamp pipeline, keeping
only records that pass validation (the method name in the entity-argument
error is `createNewFor` in the source). -/
def createManyNewFor (cfg : Codec (List Obj)) (now : DateParts) (st : DBState)
    (entity : String) (objDataArray : Option (List Obj)) :
    Except JsErr (List Obj) × DBState :=
  if ¬ entityArgOk st entity then (.error (invalidEntityErr "createNewFor"), st)
  else
    match alGet st.entities entity with
    | none => (.error (invalidEntityErr "createNewFor"), st)
    | some eopts =>
      match objDataArray with
      | none => (.error (.err "No data to create."), st)
      | some objs =>
        if objs.isEmpty then (.error (.err "No data to create."), st)
        else
          match fetchCollection cfg st entity with
          | .ok d =>
            let d' := d ++ (objs.filter eopts.validateOnCreate).map
              (fun o => enrichDataWithDBProps now (eopts.preSaveTransform o) "create")
            (.ok d', { st with entityDataMap := alSet st.entityDataMap entity d' })
          | .error e => (.error e, st)

/-- `updateFor` (src/DB.js lines 436-495).  The source patches the first
matching record in place (so the patch is visible through the cache alias
even when validation then fails), computes the transformed and re-stamped
record, but writes it back only by reassigning the `forEach` loop
parameter, which never updates the array; the returned cache therefore
holds the merged record, not the enriched one. -/
def updateFor (cfg : Codec (List Obj)) (now : DateParts) (st : DBState)
    (entity : String) (id : JsValue) (newData : Option Obj) :
    Except JsErr (List Obj) × DBState :=
  if ¬ entityArgOk st entity then (.error (invalidEntityErr "updateFor"), st)
  else if ¬ truthy id || newData.isNone then
    (.error (.err "Arguments [id] and [newData] must be provided in method [updateFor]."), st)
  else
    match alGet st.entities entity, newData with
    | some eopts, some patch =>
      match fetchCollection cfg st entity with
      | .ok d =>
        if d.isEmpty then
          (.error (.err ("DB for entity [" ++ entity ++ "] has no data.")), st)
        else
          let idK := idKeyOf eopts
          match findFirstSplit (matchesId idK id) d with
          | none => (.error (.err "Invalid or no data with given identifier."), st)
          | some (pre, r, post) =>
            let merged := mergeExceptId r patch idK
            let d' := pre ++ merged :: post
            if eopts.validateOnCreate merged then
              -- `transformedData` and `enrichedData` are computed by the
              -- source and then only assigned to the forEach parameter,
              -- which does not write into the array:
              let transformed := eopts.preSaveTransform merged
              let enriched := enrichDataWithDBProps now transformed "update"
              let _ := (transformed, enriched)
              (.ok d', { st with entityDataMap := alSet st.entityDataMap entity d' })
            else
              -- the in-place patch is already visible through the cache
              -- alias when the data came from the cache (cache hit)
              (.error (.err "Updated values for data failed validation."),
                if alHasKey st.entityDataMap entity then
                  { st with entityDataMap := alSet st.entityDataMap entity d' }
                else st)
      | .error e => (.error e, st)
    | _, _ => (.error (invalidEntityErr "updateFor"), st)

/-- `deleteFor` (src/DB.js lines 496-525): filter out every record whose
identifier field strictly equals `id` and store the result in the cache
(the error message for a missing id names `updateFor` in the source). -/
def deleteFor (cfg : Codec (List Obj)) (st : DBState) (entity : String)
    (id : JsValue) : Except JsErr (List Obj) × DBState :=
  if ¬ entityArgOk st entity then (.error (invalidEntityErr "deleteFor"), st)
  else if ¬ truthy id then
    (.error (.err "Argument [id] must be provided in method [updateFor]."), st)
  else
    match alGet st.entities entity with
    | none => (.error (invalidEntityErr "deleteFor"), st)
    | some eopts =>
      match fetchCollection cfg st entity with
      | .ok d =>
        if d.isEmpty then
          (.error (.err ("DB for entity [" ++ entity ++ "] has no data.")), st)
        else
          let idK := idKeyOf eopts
          let d' := d.filter (fun item => ¬ matchesId idK id item)
          (.ok d', { st with entityDataMap := alSet st.entityDataMap entity d' })
      | .error e => (.error e, st)

/-- `saveFor` (src/DB.js lines 526-535): flush the cached collection
through `saveAsync`.  The catch handler binds the failure as `e` but then
reads the identifier `error`, which is unbound in that scope; per JS
scoping this is modelled by an environment lookup that fails, raising a
`ReferenceError` instead of a wrapped error.  (A cache slot absent at
save time is not distinguished: `saveAsync`'s guard failures do not
inspect the data.) -/
def saveFor (cfg : Codec (List Obj)) (st : DBState) (entity : String) :
    Except JsErr Unit × DBState :=
  if ¬ entityArgOk st entity then (.error (invalidEntityErr "saveFor"), st)
  else
    let data := (alGet st.entityDataMap entity).getD []
    match DataReadWriter.saveAsync cfg st.drw entity data with
    | (.ok _, drw') => (.ok (), { st with drw := drw' })
    | (.error e, drw') =>
      let handlerEnv : List (String × JsErr) := [("e", e)]
      match alGet handlerEnv "error" with
      | some caught => (.error (.err caught.message), { st with drw := drw' })
      | none => (.error (.referenceError "error"), { st with drw := drw' })

/-- `validateEntityImportDataStructure` (src/DB.js lines 79-93) over the
parsed import value.  First guard: `!data || typeof data !== "object" ||
!data[0]`.  Second guard: `(data[0] && !typeof data[0] === "object") ||
data[0][0]`; since `!` binds tighter than `===`, `!typeof data[0]` is
`false` and `false === "object"` is `false`, so the left disjunct never
fires and only `data[0][0]` matters. -/
def validateEntityImportDataStructure (data : JsValue) : Except JsErr Unit :=
  if ¬ truthy data || ¬ typeofIsObject data || ¬ truthyOpt (jsIndex data 0) then
    .error (.err "Import data provided for entity does not have a valid structure. Top level structure must be a list/array.")
  else if false || truthyOpt ((jsIndex data 0).bind (fun x => jsIndex x 0)) then
    .error (.err "Import data provided for entity does not have a valid structure. Top level list must contain entity objects of type [object]")
  else .ok ()

/-- Spec-side predicate for C8: the value is a JSON array all of whose
elements are objects. -/
def isArrayOfObjects : JsValue → Bool
  | .arr xs => xs.all (fun x => match x with | .obj _ => true | _ => false)
  | _ => false

/-- The condition under which `validateEntityImportDataStructure` actually
accepts its input: a truthy value of JS object type whose element at
index 0 is truthy and itself has a falsy element at index 0. -/
def entityImportShapeOk (v : JsValue) : Bool :=
  truthy v && typeofIsObject v && truthyOpt (jsIndex v 0)
    && !truthyOpt ((jsIndex v 0).bind (fun x => jsIndex x 0))

/-- `generateImportedData` (src/DB.js lines 65-77): return and clear the
whole-DB import buffer if non-empty, else the entity import buffer if
non-empty, else `null`. -/
def generateImportedData (st : DBState) :
    Option (List (String × List Obj)) × DBState :=
  if ¬ st.entireDBImportData.isEmpty then
    (some st.entireDBImportData, { st with entireDBImportData := [] })
  else if ¬ st.entityImportData.isEmpty then
    (some st.entityImportData, { st with entityImportData := [] })
  else (none, st)

/-- The cache-population loop of `build` (src/DB.js lines 307-314):
`entityDataMap = {...entityDataMap, [e]: DataReadWriter.readSync(e)}` for
each registered entity; a read failure aborts the loop, keeping the
assignments already made. -/
def populateDataMap (cfg : Codec (List Obj)) (drw : DataReadWriterState (List Obj)) :
    List String → List (String × List Obj) → Except JsErr Unit × List (String × List Obj)
  | [], m => (.ok (), m)
  | e :: rest, m =>
    match DataReadWriter.readSync cfg drw e with
    | .ok d => populateDataMap cfg drw rest (alSet m e d)
    | .error er => (.error er, m)

/-- `build` (src/DB.js lines 275-321): check the secrets and the
registry, consume the import buffers into the `dataImport` option passed
to the record store's initialization, then populate the cache by a
`readSync` per registered entity.  Caught errors are rethrown as
`new Error(error.message)`. -/
def build (cfg : Codec (List Obj)) (mkCryptor : String → String → Cryptor)
    (st : DBState) (cryptoSecret vectorSecret : String)
    (options : DataReadWriter.InitOptions (List Obj)) :
    Except JsErr Unit × DBState :=
  if ¬ (stringHasValue cryptoSecret && stringHasValue vectorSecret) then
    (.error (.err "Initialization arguments [cryptoSecret] and [vectorSecret] must be provided."), st)
  else if st.entities.isEmpty then
    (.error (.err "No entities have been registered. Use module method [registerEntity] to register entities."), st)
  else
    let initRes : Except JsErr Unit × DBState :=
      if ¬ DataReadWriter.hasBeenInitialized st.drw then
        let gen := generateImportedData st
        let r := DataReadWriter.initStore cfg mkCryptor gen.2.drw cryptoSecret
          vectorSecret (gen.2.entities.map Prod.fst)
          { options with dataImport := gen.1 } []
        (r.1, { gen.2 with drw := r.2 })
      else (.ok (), st)
    match initRes with
    | (.error e, st') => (.error (.err e.message), st')
    | (.ok _, st') =>
      if DataReadWriter.hasBeenInitialized st'.drw then
        let pop := populateDataMap cfg st'.drw (st'.entities.map Prod.fst) st'.entityDataMap
        match pop.1 with
        | .ok _ => (.ok (), { st' with entityDataMap := pop.2 })
        | .error e => (.error (.err e.message), { st' with entityDataMap := pop.2 })
      else (.ok (), st')

/-! ### Export (src/DB.js lines 617-656) -/

/-- The filesystem as the export path sees it: a set of directories and a
map from file path to contents. -/
structure ExtFS where
  dirs : List String
  files : List (String × String)

/-- Node's `path.extname` on a base name: the suffix from the last dot,
empty when there is no dot or the only dot is leading. -/
def extname (s : String) : String :=
  let cs := s.toList
  match cs.reverse.findIdx? (fun c => c = '.') with
  | none => ""
  | some j =>
    let i := cs.length - 1 - j
    if i = 0 then "" else String.mk (cs.drop i)

/-- String prefix test over character lists. -/
def strStartsWith (pre s : String) : Bool := pre.toList.isPrefixOf s.toList

/-- `fs.rmSync(dir, { recursive: true, force: true })`: remove the
directory, everything below it, and all files below it. -/
def rmRecursive (fs : ExtFS) (dir : String) : ExtFS :=
  { dirs := fs.dirs.filter (fun d => !(d = dir || strStartsWith (dir ++ "/") d))
    files := fs.files.filter (fun p => !(strStartsWith (dir ++ "/") p.1)) }

def invalidExtensionErr : JsErr :=
  .err "Invalid file extension. Exports are only writable to JSON files."

/-- `exportDataToJSONForEntity` (src/DB.js lines 617-656): serialize the
cached collection, create the target directory if missing, default or
adjust the file name, and write.  On a non-`.json` extension the source
calls `fs.rmSync(folderPath, {recursive, force})` before throwing — with
no check of whether the directory existed before the call. -/
def exportDataToJSONForEntity (cfg : Codec (List Obj)) (st : DBState)
    (fs : ExtFS) (entity folderPath : String) (filename : Option String) :
    Except JsErr Unit × ExtFS :=
  if ¬ entityArgOk st entity then
    (.error (invalidEntityErr "exportDataToJSONForEntity"), fs)
  else if ¬ stringHasValue folderPath then
    (.error (.err "Argument [folderPath] is required for module method [exportDataToJSONForEntity]."), fs)
  else
    let dataStr := cfg.serialize ((alGet st.entityDataMap entity).getD [])
    let fs₁ := if fs.dirs.contains folderPath then fs
               else { fs with dirs := folderPath :: fs.dirs }
    let basename := filename.getD ("db_export_" ++ entity ++ ".json")
    let ext := extname basename
    if ext = "" then
      (.ok (), { fs₁ with
        files := alSet fs₁.files (folderPath ++ "/" ++ basename ++ ".json") dataStr })
    else if ext ≠ ".json" then
      (.error invalidExtensionErr, rmRecursive fs₁ folderPath)
    else
      (.ok (), { fs₁ with
        files := alSet fs₁.files (folderPath ++ "/" ++ basename) dataStr })

/-! ### Helper lemmas about the CRUD operations -/

theorem findFirstSplit_pred {p : α → Bool} {l pre post : List α} {x : α}
    (h : findFirstSplit p l = some (pre, x, post)) : p x = true := by
  induction l generalizing pre x post with
  | nil => simp [findFirstSplit] at h
  | cons y t ih =>
    rw [findFirstSplit] at h
    by_cases hy : p y = true
    · rw [if_pos hy] at h
      have h' := Option.some.inj h
      have hx : y = x := by
        have := congrArg (fun q : List α × α × List α => q.2.1) h'
        simpa using this
      exact hx ▸ hy
    · rw [if_neg hy] at h
      rcases hq : findFirstSplit p t with _ | ⟨⟨pre', x', post'⟩⟩ <;> rw [hq] at h
      · simp at h
      · simp only [Option.map_some'] at h
        have h' := Option.some.inj h
        have hx : x' = x := by
          have := congrArg (fun q : List α × α × List α => q.2.1) h'
          simpa using this
        exact hx ▸ ih hq

theorem findFirstSplit_nil_none (p : α → Bool) : findFirstSplit p ([] : List α) = none := rfl

theorem mergeExceptId_cons (r : Obj) (k : String) (v : JsValue) (t : Obj) (idK : String) :
    mergeExceptId r ((k, v) :: t) idK =
      mergeExceptId (if k ≠ idK then setField r k v else r) t idK := rfl

theorem mergeExceptId_getField_idKey (patch : Obj) (idK : String) :
    ∀ r : Obj, getField (mergeExceptId r patch idK) idK = getField r idK := by
  induction patch with
  | nil => intro r; rfl
  | cons kv t ih =>
    intro r
    obtain ⟨k, v⟩ := kv
    rw [mergeExceptId_cons, ih]
    by_cases hk : k ≠ idK
    · rw [if_pos hk]
      exact getField_setField_ne r v hk
    · rw [if_neg hk]

theorem mergeExceptId_getField_not_mem (idK k : String) :
    ∀ patch : Obj, k ∉ patch.map Prod.fst →
      ∀ r : Obj, getField (mergeExceptId r patch idK) k = getField r k := by
  intro patch
  induction patch with
  | nil => intro _ r; rfl
  | cons kv t ih =>
    intro hk r
    obtain ⟨k₀, v₀⟩ := kv
    simp only [List.map_cons, List.mem_cons, not_or] at hk
    rw [mergeExceptId_cons, ih hk.2]
    by_cases h₀ : k₀ ≠ idK
    · rw [if_pos h₀]
      exact getField_setField_ne r v₀ (Ne.symm hk.1)
    · rw [if_neg h₀]

theorem mergeExceptId_getField_mem (idK k : String) (v : JsValue) (hk : k ≠ idK) :
    ∀ patch : Obj, (patch.map Prod.fst).Nodup → (k, v) ∈ patch →
      ∀ r : Obj, getField (mergeExceptId r patch idK) k = some v := by
  intro patch
  induction patch with
  | nil => intro _ hmem; cases hmem
  | cons kv t ih =>
    intro hnodup hmem r
    obtain ⟨k₀, v₀⟩ := kv
    simp only [List.map_cons, List.nodup_cons] at hnodup
    rcases List.mem_cons.mp hmem with heq | hmem'
    · cases heq
      rw [mergeExceptId_cons, mergeExceptId_getField_not_mem idK k t hnodup.1, if_pos hk]
      exact getField_setField_self r k v
    · rw [mergeExceptId_cons]
      exact ih hnodup.2 hmem' _

theorem entityArgOk_of_entities_eq {st st' : DBState} (h : st'.entities = st.entities)
    (entity : String) : entityArgOk st' entity = entityArgOk st entity := by
  unfold entityArgOk
  rw [h]

/-- `createNewFor` only ever touches the cache: record store and registry
are unchanged on every path. -/
theorem createNewFor_frame (cfg : Codec (List Obj)) (now : DateParts)
    (st : DBState) (entity : String) (obj : Option Obj) :
    (createNewFor cfg now st entity obj).2.drw = st.drw ∧
    (createNewFor cfg now st entity obj).2.entities = st.entities := by
  refine ⟨?_, ?_⟩ <;>
    (unfold createNewFor; repeat' split) <;> rfl

/-- `updateFor` only ever touches the cache. -/
theorem updateFor_frame (cfg : Codec (List Obj)) (now : DateParts)
    (st : DBState) (entity : String) (id : JsValue) (newData : Option Obj) :
    (updateFor cfg now st entity id newData).2.drw = st.drw ∧
    (updateFor cfg now st entity id newData).2.entities = st.entities := by
  refine ⟨?_, ?_⟩ <;>
    (unfold updateFor
     repeat' first
       | split
       | dsimp only)

/-- `deleteFor` only ever touches the cache. -/
theorem deleteFor_frame (cfg : Codec (List Obj)) (st : DBState)
    (entity : String) (id : JsValue) :
    (deleteFor cfg st entity id).2.drw = st.drw ∧
    (deleteFor cfg st entity id).2.entities = st.entities := by
  refine ⟨?_, ?_⟩ <;>
    (unfold deleteFor; repeat' split) <;> rfl

/-- Force-fetching reads the record store and returns the state untouched. -/
theorem findAllFor_force (cfg : Codec (List Obj)) (st : DBState) (entity : String)
    (h : entityArgOk st entity = true) :
    findAllFor cfg st entity true = (DataReadWriter.readAsync cfg st.drw entity, st) := by
  unfold findAllFor
  simp [h]

end DB

/-- Saving through an initialized store overwrites the entity's file with
the encrypted serialization and returns the data. -/
theorem DataReadWriter.saveSync_of_init {α : Type} (cfg : Codec α)
    (s : DataReadWriterState α) (c : Cryptor) (m : List (String × String))
    (entity p : String) (data : α)
    (hc : s.cryptor = some c) (hm : s.entityFilesMap = some m)
    (hent : DataReadWriter.entityIsValid m entity = true)
    (hp : alGet m entity = some p) :
    DataReadWriter.saveSync cfg s entity data =
      (.ok data, { s with disk := alSet s.disk p (c.encrypt (cfg.serialize data)) }) := by
  obtain ⟨cr, fm, env, tm, disk⟩ := s
  simp only at hc hm
  subst hc
  subst hm
  simp [DataReadWriter.saveSync, hent, hp]

/-- Reading an initialized store whose file holds `raw` returns the parse
of its decryption. -/
theorem DataReadWriter.readSync_of_disk {α : Type} (cfg : Codec α)
    (s : DataReadWriterState α) (c : Cryptor) (m : List (String × String))
    (entity p raw : String) (v : α)
    (hc : s.cryptor = some c) (hm : s.entityFilesMap = some m)
    (hent : DataReadWriter.entityIsValid m entity = true)
    (hp : alGet m entity = some p)
    (hraw : alGet s.disk p = some raw)
    (hv : cfg.parse (c.decrypt raw) = some v) :
    DataReadWriter.readSync cfg s entity = .ok v := by
  obtain ⟨cr, fm, env, tm, disk⟩ := s
  simp only at hc hm hraw
  subst hc
  subst hm
  simp [DataReadWriter.readSync, hent, hp, hraw, hv]

/-! ## Shared concrete fixtures -/

/-- A codec whose serialization is never read back (cache-only scenarios). -/
def dummyCodec : Codec (List Obj) := { serialize := fun _ => "", parse := fun _ => none }

/-- An uninitialized record store. -/
def uninitDRW : DataReadWriterState (List Obj) :=
  { cryptor := none
    entityFilesMap := none
    environment := "dev"
    testMode := false
    disk := [] }

/-! ## Claims C2-C10 -/

/-- C2: for every built store and registered entity, the cache mutations
made by `createNewFor`, `updateFor` and `deleteFor` leave the record
store untouched; a subsequent `findAllFor` with `forceFetch = true`
returns the last persisted collection (what the entity's file decrypts
and parses to), never the mutated cache, and does not write its result
back into the cache (the whole state is returned unchanged); `saveFor` is
what propagates the cached collection into the record store's file. -/
theorem DB.no_implicit_persistence
    (cfg : Codec (List Obj)) (now : DateParts) (st : DBState) (entity : String)
    (obj : Option Obj) (id : JsValue) (patch : Option Obj) (delId : JsValue)
    (c : Cryptor) (m : List (String × String)) (p : String) (persisted : List Obj)
    (hc : st.drw.cryptor = some c) (hm : st.drw.entityFilesMap = some m)
    (hent : DataReadWriter.entityIsValid m entity = true)
    (harg : DB.entityArgOk st entity = true)
    (hp : alGet m entity = some p)
    (hdisk : alGet st.drw.disk p = some (c.encrypt (cfg.serialize persisted)))
    (hround : cfg.parse (c.decrypt (c.encrypt (cfg.serialize persisted))) = some persisted) :
    (DB.createNewFor cfg now st entity obj).2.drw = st.drw ∧
    (DB.updateFor cfg now st entity id patch).2.drw = st.drw ∧
    (DB.deleteFor cfg st entity delId).2.drw = st.drw ∧
    DB.findAllFor cfg (DB.createNewFor cfg now st entity obj).2 entity true
      = (.ok persisted, (DB.createNewFor cfg now st entity obj).2) ∧
    DB.findAllFor cfg (DB.updateFor cfg now st entity id patch).2 entity true
      = (.ok persisted, (DB.updateFor cfg now st entity id patch).2) ∧
    DB.findAllFor cfg (DB.deleteFor cfg st entity delId).2 entity true
      = (.ok persisted, (DB.deleteFor cfg st entity delId).2) ∧
    (DB.saveFor cfg st entity).2.drw.disk
      = alSet st.drw.disk p (c.encrypt (cfg.serialize ((alGet st.entityDataMap entity).getD []))) := by
  obtain ⟨hcd, hce⟩ := DB.createNewFor_frame cfg now st entity obj
  obtain ⟨hud, hue⟩ := DB.updateFor_frame cfg now st entity id patch
  obtain ⟨hdd, hde⟩ := DB.deleteFor_frame cfg st entity delId
  have hread : DataReadWriter.readAsync cfg st.drw entity = .ok persisted :=
    DataReadWriter.readSync_of_disk cfg st.drw c m entity p _ persisted hc hm hent hp hdisk hround
  have hsave := DataReadWriter.saveSync_of_init cfg st.drw c m entity p
    ((alGet st.entityDataMap entity).getD []) hc hm hent hp
  refine ⟨hcd, hud, hdd, ?_, ?_, ?_, ?_⟩
  · rw [DB.findAllFor_force cfg (DB.createNewFor cfg now st entity obj).2 entity
      (by rw [DB.entityArgOk_of_entities_eq hce]; exact harg)]
    rw [hcd, hread]
  · rw [DB.findAllFor_force cfg (DB.updateFor cfg now st entity id patch).2 entity
      (by rw [DB.entityArgOk_of_entities_eq hue]; exact harg)]
    rw [hud, hread]
  · rw [DB.findAllFor_force cfg (DB.deleteFor cfg st entity delId).2 entity
      (by rw [DB.entityArgOk_of_entities_eq hde]; exact harg)]
    rw [hdd, hread]
  · unfold DB.saveFor
    simp only [harg, not_true, Bool.true_eq_false, if_false, ite_false, if_neg]
    rw [show DataReadWriter.saveAsync cfg st.drw entity ((alGet st.entityDataMap entity).getD [])
      = DataReadWriter.saveSync cfg st.drw entity ((alGet st.entityDataMap entity).getD []) from rfl]
    rw [hsave]

/-- Last persisted collection used in the C2 witness. -/
def c2Persisted : List Obj := [[("id", .str "7"), ("name", .str "New")]]

/-- Codec for the C2 witness: round-trips the empty collection and
`c2Persisted`. -/
def c2Codec : Codec (List Obj) :=
  { serialize := fun l => if l.isEmpty then "[]" else "P"
    parse := fun s => if s = "[]" then some [] else if s = "P" then some c2Persisted else none }

/-- Built store for the C2 witness: the file of `categories` holds the
encryption of the serialized `c2Persisted`, the cache holds different,
uncommitted data. -/
def c2St : DBState :=
  { entities := [("categories", {})]
    entityDataMap := [("categories", [[("id", .str "9")]])]
    entityImportData := []
    entireDBImportData := []
    drw :=
      { cryptor := some witCryptor
        entityFilesMap := some [("categories", "data/dev/categories.json")]
        environment := "dev"
        testMode := false
        disk := [("data/dev/categories.json", "P")] } }

theorem no_implicit_persistence_witness :
    (DB.createNewFor c2Codec ⟨2026, 9, 11, 0⟩ c2St "categories" (some [("id", .str "x")])).2.drw = c2St.drw ∧
    (DB.updateFor c2Codec ⟨2026, 9, 11, 0⟩ c2St "categories" (.str "9") (some [("name", .str "n")])).2.drw = c2St.drw ∧
    (DB.deleteFor c2Codec c2St "categories" (.str "9")).2.drw = c2St.drw ∧
    DB.findAllFor c2Codec (DB.createNewFor c2Codec ⟨2026, 9, 11, 0⟩ c2St "categories" (some [("id", .str "x")])).2 "categories" true
      = (.ok c2Persisted, (DB.createNewFor c2Codec ⟨2026, 9, 11, 0⟩ c2St "categories" (some [("id", .str "x")])).2) ∧
    DB.findAllFor c2Codec (DB.updateFor c2Codec ⟨2026, 9, 11, 0⟩ c2St "categories" (.str "9") (some [("name", .str "n")])).2 "categories" true
      = (.ok c2Persisted, (DB.updateFor c2Codec ⟨2026, 9, 11, 0⟩ c2St "categories" (.str "9") (some [("name", .str "n")])).2) ∧
    DB.findAllFor c2Codec (DB.deleteFor c2Codec c2St "categories" (.str "9")).2 "categories" true
      = (.ok c2Persisted, (DB.deleteFor c2Codec c2St "categories" (.str "9")).2) ∧
    (DB.saveFor c2Codec c2St "categories").2.drw.disk
      = alSet c2St.drw.disk "data/dev/categories.json"
          (witCryptor.encrypt (c2Codec.serialize ((alGet c2St.entityDataMap "categories").getD []))) :=
  DB.no_implicit_persistence c2Codec ⟨2026, 9, 11, 0⟩ c2St "categories"
    (some [("id", .str "x")]) (.str "9") (some [("name", .str "n")]) (.str "9")
    witCryptor [("categories", "data/dev/categories.json")] "data/dev/categories.json" c2Persisted
    rfl rfl rfl rfl rfl rfl rfl

/-- C3: for every built store, registered entity with identifier key
`idKeyOf eopts`, cached record `r` matching `id`, and patch, a successful
`updateFor` returns the cache with the merged record in place; the merged
record's identifier field still equals `id` (even when the patch carries
the identifier key with another value) while every other key of the patch
is applied. -/
theorem DB.updateFor_identifier_immutable
    (cfg : Codec (List Obj)) (now : DateParts) (st : DBState) (entity : String)
    (id : JsValue) (eopts : EntityOptions) (patch : Obj)
    (d pre post : List Obj) (r : Obj)
    (harg : DB.entityArgOk st entity = true)
    (hopts : alGet st.entities entity = some eopts)
    (hcache : alGet st.entityDataMap entity = some d)
    (hid : truthy id = true)
    (hfind : DB.findFirstSplit (DB.matchesId (idKeyOf eopts) id) d = some (pre, r, post))
    (hval : eopts.validateOnCreate (DB.mergeExceptId r patch (idKeyOf eopts)) = true)
    (hnodup : (patch.map Prod.fst).Nodup) :
    (DB.updateFor cfg now st entity id (some patch)).1 =
      .ok (pre ++ DB.mergeExceptId r patch (idKeyOf eopts) :: post) ∧
    getField (DB.mergeExceptId r patch (idKeyOf eopts)) (idKeyOf eopts) = some id ∧
    (∀ k v, (k, v) ∈ patch → k ≠ idKeyOf eopts →
      getField (DB.mergeExceptId r patch (idKeyOf eopts)) k = some v) := by
  have hne : d.isEmpty = false := by
    cases d
    · rw [DB.findFirstSplit] at hfind
      cases hfind
    · rfl
  have hmatch : DB.matchesId (idKeyOf eopts) id r = true := DB.findFirstSplit_pred hfind
  have hrid : getField r (idKeyOf eopts) = some id := by
    unfold DB.matchesId at hmatch
    rcases hg : getField r (idKeyOf eopts) with _ | w
    · rw [hg] at hmatch
      cases hmatch
    · rw [hg] at hmatch
      rw [jsStrictEq_eq hmatch]
  refine ⟨?_, ?_, ?_⟩
  · unfold DB.updateFor
    simp [harg, hid, hopts, DB.fetchCollection, hcache, hne, hfind, hval]
  · exact (DB.mergeExceptId_getField_idKey patch (idKeyOf eopts) r).trans hrid
  · intro k v hmem hk
    exact DB.mergeExceptId_getField_mem (idKeyOf eopts) k v hk patch hnodup hmem r

/-- Cached collection for the C3 witness. -/
def c3Rec : Obj := [("id", .str "1"), ("name", .str "a")]

/-- Built store for the C3 witness. -/
def c3St : DBState :=
  { entities := [("categories", {})]
    entityDataMap := [("categories", [c3Rec, [("id", .str "2")]])]
    entityImportData := []
    entireDBImportData := []
    drw := uninitDRW }

/-- Patch for the C3 witness: tries to overwrite the identifier. -/
def c3Patch : Obj := [("id", .str "999"), ("name", .str "b"), ("extra", .num 5)]

theorem updateFor_identifier_immutable_witness :
    (DB.updateFor dummyCodec ⟨2026, 9, 11, 0⟩ c3St "categories" (.str "1") (some c3Patch)).1 =
      .ok ([] ++ DB.mergeExceptId c3Rec c3Patch (idKeyOf {}) :: [[("id", .str "2")]]) ∧
    getField (DB.mergeExceptId c3Rec c3Patch (idKeyOf {})) (idKeyOf {}) = some (.str "1") ∧
    (∀ k v, (k, v) ∈ c3Patch → k ≠ idKeyOf {} →
      getField (DB.mergeExceptId c3Rec c3Patch (idKeyOf {})) k = some v) :=
  DB.updateFor_identifier_immutable dummyCodec ⟨2026, 9, 11, 0⟩ c3St "categories"
    (.str "1") {} c3Patch [c3Rec, [("id", .str "2")]] [] [[("id", .str "2")]] c3Rec
    rfl rfl rfl rfl rfl rfl (by decide)

/-- Transform hook used in the C4 evaluation. -/
def c4Transform : Obj → Obj := fun o => setField o "flag" (.str "T")

/-- Clock reading used in the C4 evaluation (a later day than the stored
record's `updatedAt`). -/
def c4Now : DateParts := { year := 2026, month := 9, day := 11, msOfDay := 500 }

/-- Stored record for the C4 evaluation. -/
def c4Rec : Obj := [("id", .str "1"), ("updatedAt", .date 2020 0 2 0)]

/-- Built store for the C4 evaluation: `categories` has a transform hook
that stamps a `flag` field. -/
def c4St : DBState :=
  { entities := [("categories",
      { identifierKey := "id"
        validateOnCreate := fun _ => true
        preSaveTransform := c4Transform })]
    entityDataMap := [("categories", [c4Rec])]
    entityImportData := []
    entireDBImportData := []
    drw := uninitDRW }

/-- The record `updateFor` actually leaves in the cache: the in-place
merge of the patch, with the old `updatedAt` and no transform applied. -/
def c4Merged : Obj := [("id", .str "1"), ("updatedAt", .date 2020 0 2 0), ("name", .str "x")]

/-- C4: evaluation at the failing input.  A successful `updateFor` returns
the cache holding only the merged record: the `preSaveTransform` result
and the fresh `updatedAt` stamp are computed but then assigned to the
`forEach` loop parameter, which never writes into the array, so the
returned record lacks the transform's `flag` field and keeps the old
`updatedAt` — while the enriched record the spec describes would carry
both. -/
theorem DB.updateFor_discards_enrichment :
    (DB.updateFor dummyCodec c4Now c4St "categories" (.str "1") (some [("name", .str "x")])).1
      = .ok [c4Merged] ∧
    getField c4Merged "flag" = none ∧
    getField c4Merged "updatedAt" = some (.date 2020 0 2 0) ∧
    getField (enrichDataWithDBProps c4Now (c4Transform c4Merged) "update") "flag"
      = some (.str "T") ∧
    getField (enrichDataWithDBProps c4Now (c4Transform c4Merged) "update") "updatedAt"
      = some (.date 2026 9 11 0) :=
  ⟨rfl, rfl, rfl, rfl, rfl⟩

/-- Clock reading shared by the C5 theorems. -/
def c5Now : DateParts := { year := 2026, month := 9, day := 11, msOfDay := 123 }

/-- Built store for the C5 counterexample: default options (always-true
`validateOnCreate`), empty cached collection. -/
def c5St : DBState :=
  { entities := [("categories", {})]
    entityDataMap := [("categories", [])]
    entityImportData := []
    entireDBImportData := []
    drw := uninitDRW }

/-- C5 counterexample: the claim says `createNewFor` fails whenever the
record is empty or absent; but the empty object `{}` is truthy in JS, so
with the default always-true validator `createNewFor` accepts it and
appends a record holding only the stamps. -/
theorem DB.createNewFor_accepts_empty_object :
    (DB.createNewFor dummyCodec c5Now c5St "categories" (some ([] : Obj))).1
      = .ok [[("createdAt", .date 2026 9 11 0), ("updatedAt", .date 2026 9 11 0)]] ∧
    (DB.createNewFor dummyCodec c5Now c5St "categories" (some ([] : Obj))).2.entityDataMap
      = [("categories", [[("createdAt", .date 2026 9 11 0), ("updatedAt", .date 2026 9 11 0)]])] :=
  ⟨rfl, rfl⟩

/-- C5 (amended): `createNewFor` fails with the validation error exactly
when the record argument is absent (JS-falsy) or the `validateOnCreate`
hook rejects it — an empty-but-present object that the hook accepts is
created; on failure the whole state (in particular the cached collection)
is unchanged; on success it applies `preSaveTransform`, stamps
`createdAt`/`updatedAt`, appends, updates the cache and returns it. -/
theorem DB.createNewFor_validation_gate
    (cfg : Codec (List Obj)) (now : DateParts) (st : DBState) (entity : String)
    (eopts : EntityOptions)
    (harg : DB.entityArgOk st entity = true)
    (hopts : alGet st.entities entity = some eopts) :
    (DB.createNewFor cfg now st entity none
      = (.error (.err "Invalid or no data to create."), st)) ∧
    (∀ o : Obj, eopts.validateOnCreate o = false →
      DB.createNewFor cfg now st entity (some o)
        = (.error (.err "Invalid or no data to create."), st)) ∧
    (∀ (o : Obj) (d : List Obj), eopts.validateOnCreate o = true →
      alGet st.entityDataMap entity = some d →
      DB.createNewFor cfg now st entity (some o) =
        (.ok (d ++ [enrichDataWithDBProps now (eopts.preSaveTransform o) "create"]),
         { st with entityDataMap := alSet st.entityDataMap entity (d ++ [enrichDataWithDBProps now (eopts.preSaveTransform o) "create"]) })) := by
  refine ⟨?_, ?_, ?_⟩
  · unfold DB.createNewFor
    simp [harg, hopts]
  · intro o hv
    unfold DB.createNewFor
    simp [harg, hopts, hv]
  · intro o d hv hcache
    unfold DB.createNewFor
    simp [harg, hopts, hv, DB.fetchCollection, hcache]

/-- Options for the C5 witness: the validator rejects records lacking an
`id` field. -/
def c5Opts : EntityOptions :=
  { identifierKey := "id"
    validateOnCreate := fun o => truthyOpt (getField o "id")
    preSaveTransform := fun o => o }

/-- Store for the C5 witness. -/
def c5WitSt : DBState :=
  { entities := [("categories", c5Opts)]
    entityDataMap := [("categories", [])]
    entityImportData := []
    entireDBImportData := []
    drw := uninitDRW }

theorem createNewFor_validation_gate_witness :
    (DB.createNewFor dummyCodec c5Now c5WitSt "categories" none
      = (.error (.err "Invalid or no data to create."), c5WitSt)) ∧
    (∀ o : Obj, c5Opts.validateOnCreate o = false →
      DB.createNewFor dummyCodec c5Now c5WitSt "categories" (some o)
        = (.error (.err "Invalid or no data to create."), c5WitSt)) ∧
    (∀ (o : Obj) (d : List Obj), c5Opts.validateOnCreate o = true →
      alGet c5WitSt.entityDataMap "categories" = some d →
      DB.createNewFor dummyCodec c5Now c5WitSt "categories" (some o) =
        (.ok (d ++ [enrichDataWithDBProps c5Now (c5Opts.preSaveTransform o) "create"]),
         { c5WitSt with entityDataMap := alSet c5WitSt.entityDataMap "categories" (d ++ [enrichDataWithDBProps c5Now (c5Opts.preSaveTransform o) "create"]) })) :=
  DB.createNewFor_validation_gate dummyCodec c5Now c5WitSt "categories" c5Opts rfl rfl

/-- Imported data for the C6 evaluation. -/
def c6ImportD : List Obj := [[("id", .str "4321")]]

/-- Codec for the C6 evaluation: round-trips the empty collection and
`c6ImportD`. -/
def c6Codec : Codec (List Obj) :=
  { serialize := fun l => if l.isEmpty then "[]" else "D"
    parse := fun s => if s = "[]" then some [] else if s = "D" then some c6ImportD else none }

/-- Cipher factory for the C6 evaluation: the identity cipher. -/
def c6MkCryptor : String → String → Cryptor := fun _ _ => witCryptor

/-- Fresh store for the C6 evaluation: `categories` registered, the
entity import buffer holding `c6ImportD`, record store uninitialized. -/
def c6St : DBState :=
  { entities := [("categories", {})]
    entityDataMap := []
    entityImportData := [("categories", c6ImportD)]
    entireDBImportData := []
    drw := uninitDRW }

/-- C6: evaluation at the failing input.  A fresh store with a successful
entity import builds successfully, but the cache for the entity comes out
empty, not the imported data: `build` passes the import buffer as the
`dataImport` option, and the record store's initialization never reads
that option, creating each file with an encrypted empty collection. -/
theorem DB.build_ignores_imported_data :
    c6St.entityImportData = [("categories", c6ImportD)] ∧
    arrayHasValue c6ImportD = true ∧
    (DB.build c6Codec c6MkCryptor c6St "secret" "vector" {}).1 = .ok () ∧
    (DB.build c6Codec c6MkCryptor c6St "secret" "vector" {}).2.entityDataMap
      = [("categories", [])] ∧
    ([("categories", ([] : List Obj))] : List (String × List Obj))
      ≠ [("categories", c6ImportD)] := by
  refine ⟨rfl, rfl, rfl, rfl, ?_⟩
  intro h
  simp [c6ImportD] at h

/-- Pre-existing export directory with a file, for the C7 evaluation. -/
def c7FS : DB.ExtFS := { dirs := ["exports"], files := [("exports/keep.txt", "x")] }

/-- Built-enough store for the C7 evaluation. -/
def c7St : DBState :=
  { entities := [("categories", {})]
    entityDataMap := [("categories", [])]
    entityImportData := []
    entireDBImportData := []
    drw := uninitDRW }

/-- C7: evaluation at the failing input.  Exporting with a non-`.json`
filename into a directory that existed before the call fails with the
invalid-extension error, and the rollback `fs.rmSync(folderPath,
{recursive, force})` deletes the pre-existing directory and its contents
— the code never checks whether it created the directory.  (For a
directory the call did create, removal is what the claim expects; last
conjunct.) -/
theorem DB.export_rollback_removes_preexisting_dir :
    c7FS.dirs.contains "exports" = true ∧
    alGet c7FS.files "exports/keep.txt" = some "x" ∧
    (DB.exportDataToJSONForEntity dummyCodec c7St c7FS "categories" "exports" (some "file.pdf")).1
      = .error DB.invalidExtensionErr ∧
    (DB.exportDataToJSONForEntity dummyCodec c7St c7FS "categories" "exports" (some "file.pdf")).2.dirs
      = [] ∧
    (DB.exportDataToJSONForEntity dummyCodec c7St c7FS "categories" "exports" (some "file.pdf")).2.files
      = [] ∧
    (DB.exportDataToJSONForEntity dummyCodec c7St { dirs := [], files := [] } "categories" "exports" (some "file.pdf")).2.dirs
      = [] :=
  ⟨rfl, rfl, rfl, rfl, rfl, rfl⟩

/-- C8 counterexample: the empty array is a JSON array of objects
(vacuously), yet the import structure check rejects it, because the first
guard requires a truthy element at index 0. -/
theorem DB.importStructure_rejects_empty_array :
    isArrayOfObjects (.arr []) = true ∧
    DB.validateEntityImportDataStructure (.arr []) ≠ .ok () :=
  ⟨rfl, fun h => by simp [DB.validateEntityImportDataStructure, truthy, typeofIsObject, truthyOpt, jsIndex] at h⟩

/-- C8 (amended): the entity-scoped import structure check accepts a
value exactly when it is truthy, of JS object type, has a truthy element
at index 0, and that element has no truthy element/property at its own
index 0.  In particular this is not "is an array of objects": the empty
array is rejected, while e.g. a non-array object with a suitable `"0"`
property, or an array headed by a truthy non-object, is accepted. -/
theorem DB.importStructure_characterization :
    ∀ v : JsValue,
      (DB.validateEntityImportDataStructure v = .ok ()) ↔ DB.entityImportShapeOk v = true := by
  intro v
  by_cases a : truthy v = true <;>
    by_cases b : typeofIsObject v = true <;>
      by_cases c : truthyOpt (jsIndex v 0) = true <;>
        by_cases d : truthyOpt ((jsIndex v 0).bind (fun x => jsIndex x 0)) = true <;>
          simp [DB.validateEntityImportDataStructure, DB.entityImportShapeOk, a, b, c, d]

/-- C9: the `createdAt`/`updatedAt` values stamped by
`enrichDataWithDBProps` — the only stamping path of `createNewFor`,
`createManyNewFor` and `updateFor` — are the current local calendar date
truncated to midnight (time-of-day component zero), so two stampings on
the same calendar day produce identical values: the whole enriched
records agree whatever the time of day of each call. -/
theorem enrich_stamps_truncated_midnight (now now' : DateParts) (o : Obj)
    (hy : now.year = now'.year) (hm : now.month = now'.month)
    (hd : now.day = now'.day) :
    getField (enrichDataWithDBProps now o "create") "createdAt"
      = some (.date now.year now.month now.day 0) ∧
    getField (enrichDataWithDBProps now o "create") "updatedAt"
      = some (.date now.year now.month now.day 0) ∧
    getField (enrichDataWithDBProps now o "update") "updatedAt"
      = some (.date now.year now.month now.day 0) ∧
    enrichDataWithDBProps now o "create" = enrichDataWithDBProps now' o "create" ∧
    enrichDataWithDBProps now o "update" = enrichDataWithDBProps now' o "update" := by
  have hdate : dateTruncated now = dateTruncated now' := by
    unfold dateTruncated
    rw [hy, hm, hd]
  refine ⟨?_, ?_, ?_, ?_, ?_⟩
  · unfold enrichDataWithDBProps
    rw [if_pos rfl, getField_setField_ne _ _ (by decide)]
    exact getField_setField_self o "createdAt" (dateTruncated now)
  · unfold enrichDataWithDBProps
    rw [if_pos rfl]
    exact getField_setField_self _ "updatedAt" (dateTruncated now)
  · unfold enrichDataWithDBProps
    rw [if_neg (by decide)]
    exact getField_setField_self o "updatedAt" (dateTruncated now)
  · unfold enrichDataWithDBProps
    rw [hdate]
  · unfold enrichDataWithDBProps
    rw [hdate]

theorem enrich_stamps_truncated_midnight_witness :
    getField (enrichDataWithDBProps ⟨2026, 9, 11, 123⟩ [("a", .num 1)] "create") "createdAt"
      = some (.date 2026 9 11 0) ∧
    getField (enrichDataWithDBProps ⟨2026, 9, 11, 123⟩ [("a", .num 1)] "create") "updatedAt"
      = some (.date 2026 9 11 0) ∧
    getField (enrichDataWithDBProps ⟨2026, 9, 11, 123⟩ [("a", .num 1)] "update") "updatedAt"
      = some (.date 2026 9 11 0) ∧
    enrichDataWithDBProps ⟨2026, 9, 11, 123⟩ [("a", .num 1)] "create"
      = enrichDataWithDBProps ⟨2026, 9, 11, 999⟩ [("a", .num 1)] "create" ∧
    enrichDataWithDBProps ⟨2026, 9, 11, 123⟩ [("a", .num 1)] "update"
      = enrichDataWithDBProps ⟨2026, 9, 11, 999⟩ [("a", .num 1)] "update" :=
  enrich_stamps_truncated_midnight ⟨2026, 9, 11, 123⟩ ⟨2026, 9, 11, 999⟩
    [("a", .num 1)] rfl rfl rfl

/-- C10: whenever the record store's `saveAsync` fails inside `saveFor`,
the catch handler binds the failure as `e` but reads the unbound
identifier `error`, so `saveFor` surfaces a `ReferenceError` — a constant
independent of the underlying failure — instead of an error wrapping the
original message. -/
theorem DB.saveFor_raises_referenceError (cfg : Codec (List Obj)) (st : DBState)
    (entity : String) (e : JsErr)
    (harg : DB.entityArgOk st entity = true)
    (hfail : (DataReadWriter.saveAsync cfg st.drw entity
      ((alGet st.entityDataMap entity).getD [])).1 = .error e) :
    (DB.saveFor cfg st entity).1 = .error (.referenceError "error") ∧
    (DB.saveFor cfg st entity).1 ≠ .error (.err e.message) := by
  unfold DB.saveFor
  rcases hs : DataReadWriter.saveAsync cfg st.drw entity
    ((alGet st.entityDataMap entity).getD []) with ⟨res, drw2⟩
  rw [hs] at hfail
  simp only at hfail
  subst hfail
  constructor
  · simp [harg, hs, alGet]
  · simp [harg, hs, alGet]

/-- Store for the C10 witness: entity registered and cached, record store
uninitialized, so `saveAsync` fails with the not-initialized error. -/
def c10St : DBState :=
  { entities := [("categories", {})]
    entityDataMap := [("categories", [])]
    entityImportData := []
    entireDBImportData := []
    drw := uninitDRW }

theorem saveFor_raises_referenceError_witness :
    (DB.saveFor dummyCodec c10St "categories").1 = .error (.referenceError "error") ∧
    (DB.saveFor dummyCodec c10St "categories").1
      ≠ .error (.err DataReadWriter.notInitializedErr.message) :=
  DB.saveFor_raises_referenceError dummyCodec c10St "categories"
    DataReadWriter.notInitializedErr rfl rfl

end JsonCryptDB
